import Mathlib

/-
Verification of the peer availability monitoring subsystem
(nucypher/network/protocols.py): the PeerAddress wire encoding
(InterfaceInfo), the node-URI parsing grammar (parse_node_uri), and the
AvailabilitySensor sampling/scoring/escalation loop.

Python strings are modelled as List Char (a Python str is a sequence of
code points), byte strings as List Nat (one entry per byte), floats are
modelled as exact rationals, and fallible code returns Except or Option.
-/

set_option autoImplicit false

namespace NucypherProtocols

/-! ## InterfaceInfo: the peer-address wire encoding

Embedded at the byte level: the host is represented by its UTF-8 byte
sequence (the Python codec satisfies decode(encode(s)) = s for every str,
so working on the bytes is faithful to the source, which splits the wire
form at a byte before UTF-8-decoding the left part). -/

/-- UTF-8 bytes of the string "localhost". -/
def localhostBytes : List Nat := [108, 111, 99, 97, 108, 104, 111, 115, 116]

/-- UTF-8 bytes of the string "127.0.0.1". -/
def loopbackBytes : List Nat := [49, 50, 55, 46, 48, 46, 48, 46, 49]

/-- A constructed InterfaceInfo value: host (as UTF-8 bytes) and port. -/
structure InterfaceInfo where
  host : List Nat
  port : Nat
  deriving DecidableEq, Repr

/-- Embeds InterfaceInfo.__init__: the host "localhost" is replaced by the
numeric loopback form "127.0.0.1"; the port is stored as an integer. -/
def mkInterfaceInfo (host : List Nat) (port : Nat) : InterfaceInfo :=
  { host := if host = localhostBytes then loopbackBytes else host
    port := port }

/-- Embeds port.to_bytes(4, "big"): the four big-endian base-256 digits of
the port (the Python call raises OverflowError for port at least 2 to the
32; the round-trip theorem carries that bound as a hypothesis). -/
def portBytes4 (port : Nat) : List Nat :=
  [port / 2 ^ 24 % 256, port / 2 ^ 16 % 256, port / 2 ^ 8 % 256, port % 256]

/-- Embeds int.from_bytes(bs, "big"): big-endian accumulation. -/
def bytesToNat (bs : List Nat) : Nat :=
  bs.foldl (fun acc b => acc * 256 + b) 0

/-- Embeds InterfaceInfo.__bytes__: UTF-8 host bytes, one colon byte
(0x3A = 58), then the port as a 4-byte big-endian unsigned integer. -/
def interfaceBytes (i : InterfaceInfo) : List Nat :=
  i.host ++ 58 :: portBytes4 i.port

/-- Embeds url_string.split(sep, 1) followed by unpacking into exactly two
names: none when the separator byte is absent (Python unpack ValueError),
otherwise the part before the first separator and everything after it. -/
def splitOnceAt (sep : Nat) : List Nat → Option (List Nat × List Nat)
  | [] => none
  | b :: rest =>
      if b = sep then some ([], rest)
      else (splitOnceAt sep rest).map (fun p => (b :: p.1, p.2))

/-- Embeds InterfaceInfo.from_bytes: split at the first colon byte, decode
the left part as the host, read the right part big-endian as the port, and
run the constructor (which normalizes "localhost"). -/
def fromBytes (bs : List Nat) : Option InterfaceInfo :=
  (splitOnceAt 58 bs).map (fun p => mkInterfaceInfo p.1 (bytesToNat p.2))

/-! ## parse_node_uri and its urllib.parse collaborator

The parser is embedded over List Char. The pieces of the Python standard
library urllib.parse that parse_node_uri relies on (urlparse restricted to
inputs that begin with the literal prefix https://, plus the hostname and
port accessors of the result) are embedded from the CPython source of
urllib/parse.py, since they decide what parse_node_uri returns. -/

/-- Errors raised by parse_node_uri or by the urllib accessors it calls. -/
inductive ParseError where
  /-- ValueError from unpacking uri.split at-sign into two names when the
  split has more than two parts. -/
  | unpack
  /-- ValueError for a checksum address failing validation. -/
  | badChecksum (addr : List Char)
  /-- ValueError for a scheme other than https. -/
  | badScheme
  /-- ValueError raised by urlsplit for unbalanced square brackets. -/
  | invalidIpv6
  /-- ValueError raised by the port accessor for a non-digit port. -/
  | portValue
  /-- ValueError raised by the port accessor for a port above 65535. -/
  | portRange
  deriving DecidableEq, Repr

/-- The eight characters of the literal prefix https:// . -/
def httpsMarker : List Char := ['h', 't', 't', 'p', 's', ':', '/', '/']

/-- Embeds str.split(sep) for a one-character separator: the maximal runs
between occurrences of sep, with empty runs kept (the empty string splits
to one empty part). -/
def pySplit (sep : Char) : List Char → List (List Char)
  | [] => [[]]
  | c :: rest =>
      let r := pySplit sep rest
      if c = sep then [] :: r
      else
        match r with
        | [] => [[c]]
        | h :: t => (c :: h) :: t

/-- Embeds urlsplit stripping of tab, CR and LF before any parsing. -/
def cleanUrl (s : List Char) : List Char :=
  s.filter (fun c => !(c == Char.ofNat 9 || c == Char.ofNat 13 || c == Char.ofNat 10))

/-- Characters that terminate the netloc in urlsplit. -/
def isNetlocDelim (c : Char) : Bool :=
  c == '/' || c == '?' || c == '#'

/-- The scheme and netloc fields of a urlsplit result. -/
structure SplitResult where
  scheme : List Char
  netloc : List Char
  deriving DecidableEq, Repr

/-- Embeds urllib.parse.urlparse restricted to inputs that begin with the
eight characters https:// (every string parse_node_uri hands to urlparse
does, by the forced-prefix step): after removing tab, CR and LF, the
scheme parses to https and the netloc is the segment after the two slashes
up to the first slash, question mark or hash; urlsplit then raises
ValueError when the netloc has a square bracket without its partner. -/
def urlparseHttps (url : List Char) : Except ParseError SplitResult :=
  let cleaned := cleanUrl url
  let netloc := (cleaned.drop 8).takeWhile (fun c => !(isNetlocDelim c))
  if (netloc.contains '[' && !(netloc.contains ']')) ||
      (netloc.contains ']' && !(netloc.contains '[')) then
    .error .invalidIpv6
  else
    .ok { scheme := ['h', 't', 't', 'p', 's'], netloc := netloc }

/-- First component of str.partition(sep): the part before the first
occurrence of sep, or the whole string when sep is absent. -/
def beforeFirstAt (sep : Char) (s : List Char) : List Char :=
  s.takeWhile (fun c => !(c == sep))

/-- Third component of str.partition(sep): the part after the first
occurrence of sep, or the empty string when sep is absent. -/
def afterFirstAt (sep : Char) (s : List Char) : List Char :=
  (s.dropWhile (fun c => !(c == sep))).drop 1

/-- Third component of str.rpartition(sep): the part after the last
occurrence of sep, or the whole string when sep is absent. -/
def afterLastAt (sep : Char) (s : List Char) : List Char :=
  (s.reverse.takeWhile (fun c => !(c == sep))).reverse

/-- Embeds the _hostinfo property of a urlsplit result: drop everything up
to the last at-sign, then either bracketed-IPv6 splitting or a plain
partition at the first colon; an empty port string becomes None. -/
def hostinfoOf (netloc : List Char) : List Char × Option (List Char) :=
  let hostinfo := afterLastAt '@' netloc
  if hostinfo.contains '[' then
    let bracketed := afterFirstAt '[' hostinfo
    let hostname := beforeFirstAt ']' bracketed
    let port := afterFirstAt ':' (afterFirstAt ']' bracketed)
    (hostname, if port = [] then none else some port)
  else
    let hostname := beforeFirstAt ':' hostinfo
    let port := afterFirstAt ':' hostinfo
    (hostname, if port = [] then none else some port)

/-- Embeds the hostname property of a urlsplit result: None for an empty
host, otherwise the host lowercased up to a percent sign (zone info after
a percent sign is kept verbatim). Char.toLower agrees with str.lower on
the ASCII hostnames the theorems below quantify over. -/
def hostnameOf (netloc : List Char) : Option (List Char) :=
  let h := (hostinfoOf netloc).1
  if h = [] then none
  else
    some ((beforeFirstAt '%' h).map Char.toLower ++ h.dropWhile (fun c => !(c == '%')))

/-- Value of a string of decimal digits. -/
def digitsToNat (s : List Char) : Nat :=
  s.foldl (fun acc c => acc * 10 + (c.toNat - 48)) 0

/-- Embeds the port property of a urlsplit result: None when no port part
is present, the integer value when the part is all ASCII digits and at
most 65535, and ValueError otherwise. -/
def portOf (netloc : List Char) : Except ParseError (Option Nat) :=
  match (hostinfoOf netloc).2 with
  | none => .ok none
  | some ps =>
      if ps.all Char.isDigit then
        if digitsToNat ps ≤ 65535 then .ok (some (digitsToNat ps))
        else .error .portRange
      else .error .portValue

/-- Result triple of parse_node_uri: hostname (None when the netloc has an
empty host part), port, and the optional checksum address. -/
structure ParsedNode where
  hostname : Option (List Char)
  port : Nat
  checksumAddress : Option (List Char)
  deriving DecidableEq, Repr

/-- Embeds parse_node_uri. The default REST port constant lives in a
configuration module outside the provided sources, so it is a parameter,
as is the external eth_utils checksum validator. The at-sign handling
matches the source: with no at-sign the split has one part and the address
is None (federated); with exactly one at-sign the left part must validate;
with more at-signs the two-name unpacking raises ValueError. The uri is
then unconditionally prefixed with https:// when it does not already start
with it, so the parsed scheme is always https and the two scheme checks in
the source (re-parse on empty scheme, ValueError on non-https scheme)
never fire; the non-https ValueError is kept below for fidelity. The
returned port falls back to the default when the parsed port is None or 0
(the source uses the or operator, and 0 is falsy). -/
def parse_node_uri (defaultPort : Nat) (isChecksumAddress : List Char → Bool)
    (uri : List Char) : Except ParseError ParsedNode :=
  let idStep : Except ParseError (Option (List Char) × List Char) :=
    match pySplit '@' uri with
    | [_] => .ok (none, uri)
    | [addr, rest] =>
        if isChecksumAddress addr then .ok (some addr, rest)
        else .error (.badChecksum addr)
    | _ => .error .unpack
  match idStep with
  | .error e => .error e
  | .ok (addr, rest) =>
      let forced := if rest.take 8 = httpsMarker then rest else httpsMarker ++ rest
      match urlparseHttps forced with
      | .error e => .error e
      | .ok parsed =>
          if parsed.scheme ≠ ['h', 't', 't', 'p', 's'] then .error .badScheme
          else
            match portOf parsed.netloc with
            | .error e => .error e
            | .ok portOpt =>
                let port :=
                  match portOpt with
                  | some p => if p = 0 then defaultPort else p
                  | none => defaultPort
                .ok { hostname := hostnameOf parsed.netloc
                      port := port
                      checksumAddress := addr }


/-- Characters of a plain hostname locator: ASCII letters, digits, dot and
hyphen. Used to state the default-port claim about scheme-less, port-less,
identity-less locators. -/
def hostChar (c : Char) : Bool :=
  c.isAlpha || c.isDigit || c == '.' || c == '-'

/-! ## AvailabilitySensor

The sensor state carries the configuration, the record window (a deque
with maxlen = retention) and the activation time. The fields ursula
(known-peer directory, middleware), the looping-call task and the logger
are external collaborators; the parts of them a maintenance round reads
(known-peer count, the lonely flag, the clock, the probe response status
codes) form the round environment Env. -/

/-- Escalation actions of the sensor, in the severity order of the source:
mild_warning, medium_warning, severe_warning. -/
inductive Action where
  | mild
  | medium
  | severe
  deriving DecidableEq, Repr

/-- Embeds the Record namedtuple: a timestamped boolean round outcome. -/
structure SensorRecord where
  time : Int
  result : Bool
  deriving DecidableEq, Repr

/-- Embeds AvailabilitySensor state: configuration, the record window and
the activation instant set by start. -/
structure Sensor where
  sampleSize : Nat
  sensitivity : Nat
  retention : Nat
  records : List SensorRecord
  startTime : Int
  deriving DecidableEq, Repr

/-- A sensor as built by AvailabilitySensor.__init__ (empty record deque)
once start has set the activation time. -/
def mkSensor (sampleSize sensitivity retention : Nat) (startTime : Int) : Sensor :=
  { sampleSize := sampleSize
    sensitivity := sensitivity
    retention := retention
    records := []
    startTime := startTime }

/-- Embeds MAXIMUM_ALONE_TIME = 60 * 2 seconds. -/
def MAXIMUM_ALONE_TIME : Int := 120

/-- Embeds one Python dict assignment d[k] = v on an insertion-ordered
dict: overwrite in place when the key exists, append otherwise. -/
def dictInsert (d : List (Nat × Action)) (k : Nat) (v : Action) : List (Nat × Action) :=
  if d.any (fun p => p.1 == k) then
    d.map (fun p => if p.1 = k then (k, v) else p)
  else d ++ [(k, v)]

/-- Embeds the warnings dict built in __init__ from the retention value:
threshold 1 maps to mild, retention // 2 to medium, retention to severe.
Key collisions follow Python dict semantics: for retention 2 or 3 the key
retention // 2 = 1 overwrites mild with medium, and for retention 1 the
key retention overwrites that entry again with severe. The sensor never
mutates retention or the dict after construction, so the dict is recovered
from the retention field wherever the source reads self.warnings. -/
def mkWarnings (retention : Nat) : List (Nat × Action) :=
  dictInsert (dictInsert (dictInsert [] 1 .mild) (retention / 2) .medium)
    retention .severe

/-- Number of records in the window whose result flag is truthy (the
length of the list comprehension in the score property). -/
def failedCount (records : List SensorRecord) : Nat :=
  records.countP (fun r => r.result)

/-- Embeds the score property: failed count divided by the configured
retention capacity (not by the occupancy). The Python float division is
modelled as exact rational division. -/
def score (s : Sensor) : ℚ :=
  (failedCount s.records : ℚ) / (s.retention : ℚ)

/-- Whether the body of an escalation action escapes with an exception:
severe_warning always raises (see severeWarningRun below); the mild action
only logs. Iteration in issue_warnings stops at a raising action. -/
def actionRaises : Action → Bool
  | .severe => true
  | _ => false

/-- Embeds the loop of issue_warnings over the (threshold, action) pairs:
an action is invoked when score is at least its threshold (float versus
int comparison, modelled over the rationals); the returned list is the
sequence of actions invoked, cut off after an action that raises. -/
def issueWarningsFrom : List (Nat × Action) → ℚ → List Action
  | [], _ => []
  | (t, a) :: rest, sc =>
      if (t : ℚ) ≤ sc then
        if actionRaises a then [a]
        else a :: issueWarningsFrom rest sc
      else issueWarningsFrom rest sc

/-- Embeds issue_warnings: the sequence of escalation actions a call
invokes, given the current score. -/
def issue_warnings (s : Sensor) : List Action :=
  issueWarningsFrom (mkWarnings s.retention) (score s)

/-- Embeds an append to collections.deque with maxlen: append at the tail
and evict from the head whatever exceeds the capacity. -/
def dequeAppend (maxlen : Nat) (xs : List SensorRecord) (x : SensorRecord) :
    List SensorRecord :=
  let ys := xs ++ [x]
  ys.drop (ys.length - maxlen)

/-- Embeds record(result): append a timestamped outcome to the window. -/
def record (s : Sensor) (now : Int) (result : Bool) : Sensor :=
  { s with records := dequeAppend s.retention s.records { time := now, result := result } }

/-- Record a whole sequence of outcomes in order (repeated record calls). -/
def recordAll (s : Sensor) (outcomes : List (Int × Bool)) : Sensor :=
  outcomes.foldl (fun acc o => record acc o.1 o.2) s

/-- Errors raised inside a maintenance round. -/
inductive SensorError where
  /-- ValueError from measure for sensitivity above the sample size. -/
  | configError
  deriving DecidableEq, Repr

/-- Number of probe responses whose status code is not 200 (the failed
counter of the measure loop). -/
def countFailures (statuses : List Nat) : Nat :=
  statuses.countP (fun st => st != 200)

/-- Environment a maintenance round reads from its collaborators: the
known-peer count, the lonely flag, the current clock, and the status codes
the middleware returns for the sampled peers. -/
structure Env where
  knownNodes : Nat
  lonely : Bool
  now : Int
  statuses : List Nat
  deriving DecidableEq, Repr

/-- Embeds measure: first the sensitivity-versus-sample-size guard (a
synchronous ValueError), then the aggregate outcome: whether the number of
failed probes reaches the sensitivity. -/
def measure (s : Sensor) (statuses : List Nat) : Except SensorError Bool :=
  if s.sampleSize < s.sensitivity then .error .configError
  else .ok (decide (s.sensitivity ≤ countFailures statuses))

/-- Embeds maintain, one round: with zero known peers, either skip (lonely
node, or still within the alone-time budget since start) or invoke the
severe action once; with too few known peers, skip; otherwise measure,
record the outcome and issue warnings. The result is the sensor state
after the round together with the sequence of escalation actions the round
invoked. -/
def maintain (s : Sensor) (env : Env) : Except SensorError (Sensor × List Action) :=
  if env.knownNodes = 0 then
    if env.lonely then .ok (s, [])
    else if MAXIMUM_ALONE_TIME ≤ env.now - s.startTime then .ok (s, [.severe])
    else .ok (s, [])
  else if env.knownNodes < s.sampleSize then .ok (s, [])
  else
    match measure s env.statuses with
    | .error e => .error e
    | .ok result =>
        let s2 := record s env.now result
        .ok (s2, issue_warnings s2)

/-- A sensor with the default configuration (sample size 3, sensitivity 2,
retention 10) that has recorded ten consecutive failed rounds: the
end-to-end scenario of the spec. -/
def sensorTen : Sensor :=
  recordAll (mkSensor 3 2 10 0)
    [(0, true), (1, true), (2, true), (3, true), (4, true),
     (5, true), (6, true), (7, true), (8, true), (9, true)]

/-! ## The severe escalation action and its logger collaborator -/

/-- Log-emitting methods of the external twisted.logger.Logger class (the
type of self.log): emit, failure, debug, info, warn, error, critical.
Attribute lookup of any other name on a Logger instance raises
AttributeError. -/
def loggerMethods : List (List Char) :=
  [['e', 'm', 'i', 't'],
   ['f', 'a', 'i', 'l', 'u', 'r', 'e'],
   ['d', 'e', 'b', 'u', 'g'],
   ['i', 'n', 'f', 'o'],
   ['w', 'a', 'r', 'n'],
   ['e', 'r', 'r', 'o', 'r'],
   ['c', 'r', 'i', 't', 'i', 'c', 'a', 'l']]

/-- The attribute name the source looks up on the logger in
severe_warning: the seven characters c r i t i a l of self.log.critial
(line 150 of protocols.py). -/
def severeLogAttr : List Char := ['c', 'r', 'i', 't', 'i', 'a', 'l']

/-- How a call to severe_warning can end. -/
inductive SevereResult where
  /-- AttributeError from looking up a method name the logger lacks. -/
  | raisedAttributeError (attr : List Char)
  /-- The behavior the spec describes: a critical log, then Unreachable. -/
  | loggedCriticalAndRaisedUnreachable
  deriving DecidableEq, Repr

/-- Embeds severe_warning: Python evaluates the attribute lookup
self.log.critial before the call and before the raise statement, so the
call raises Unreachable (after logging) only when the logger exposes the
looked-up attribute, and AttributeError otherwise. -/
def severeWarningRun : SevereResult :=
  if loggerMethods.contains severeLogAttr then .loggedCriticalAndRaisedUnreachable
  else .raisedAttributeError severeLogAttr

/-! ## Theorems -/

lemma splitOnceAt_append (sep : Nat) (h t : List Nat) (hh : sep ∉ h) :
    splitOnceAt sep (h ++ sep :: t) = some (h, t) := by
  induction h with
  | nil => simp [splitOnceAt]
  | cons b rest ih =>
      have hb : b ≠ sep := by
        intro e; exact hh (e ▸ List.mem_cons_self b rest)
      have hrest : sep ∉ rest := fun hm => hh (List.mem_cons_of_mem b hm)
      simp [splitOnceAt, hb, ih hrest]

lemma bytesToNat_portBytes4 (p : Nat) (hp : p < 2 ^ 32) :
    bytesToNat (portBytes4 p) = p := by
  simp only [bytesToNat, portBytes4, List.foldl]
  omega

lemma mem_of_mem_normHost (b : Nat) (host : List Nat)
    (hb : b ∉ host) (hb2 : b ∉ loopbackBytes) :
    b ∉ (mkInterfaceInfo host 0).host := by
  by_cases hl : host = localhostBytes
  · simp [mkInterfaceInfo, hl]; exact hb2
  · simpa [mkInterfaceInfo, hl] using hb

/-- Claim C4: for every address whose host contains no colon byte and whose
port is below 2 to the 32, decoding the binary encoding returns the
constructed (localhost-normalized) address unchanged. -/
theorem interface_bytes_roundtrip (host : List Nat) (port : Nat)
    (hcolon : 58 ∉ host) (hport : port < 2 ^ 32) :
    fromBytes (interfaceBytes (mkInterfaceInfo host port)) =
      some (mkInterfaceInfo host port) := by
  have hloop : (58 : Nat) ∉ loopbackBytes := by decide
  have hnorm : 58 ∉ (mkInterfaceInfo host port).host := by
    by_cases hl : host = localhostBytes
    · simp only [mkInterfaceInfo, hl, if_pos rfl]; exact hloop
    · simpa [mkInterfaceInfo, hl] using hcolon
  have hne : (mkInterfaceInfo host port).host ≠ localhostBytes := by
    by_cases hl : host = localhostBytes
    · simp only [mkInterfaceInfo, hl, if_pos rfl]; decide
    · simp [mkInterfaceInfo, hl]
  have hne2 : (if host = localhostBytes then loopbackBytes else host) ≠ localhostBytes := by
    simpa [mkInterfaceInfo] using hne
  simp only [fromBytes, interfaceBytes,
    splitOnceAt_append 58 _ _ hnorm, Option.map_some]
  simp [mkInterfaceInfo, hne2, bytesToNat_portBytes4 port hport]

/-- Witness for C4 at the concrete input host = "localhost", port = 9151:
the hypotheses hold there and the round-trip returns the normalized
loopback address. -/
theorem interface_bytes_roundtrip_witness :
    ((58 : Nat) ∉ localhostBytes ∧ 9151 < 2 ^ 32) ∧
      fromBytes (interfaceBytes (mkInterfaceInfo localhostBytes 9151)) =
        some (mkInterfaceInfo localhostBytes 9151) :=
  ⟨by decide, interface_bytes_roundtrip localhostBytes 9151 (by decide) (by decide)⟩

/-- Claim C5: the claim states that severe_warning always emits a critical
log and then raises Unreachable. The source line self.log.critial misspells
the logger method critical, and twisted.logger.Logger has no attribute of
that name, so every call instead raises AttributeError at the lookup,
before any logging and before the raise of Unreachable: the code
contradicts the specified (and clearly intended) behavior. -/
theorem severe_warning_raises_attribute_error :
    severeWarningRun = SevereResult.raisedAttributeError severeLogAttr ∧
      severeWarningRun ≠ SevereResult.loggedCriticalAndRaisedUnreachable := by
  decide

/-- Claim C6: the claim states that a locator with an explicit non-https
scheme, such as http://peer.example:9151, makes parse_node_uri raise a
validation error. It does not: the source first unconditionally prefixes
the uri with https:// whenever it does not already start with that marker,
so the parsed scheme is always https, the scheme ValueError is unreachable
dead code, and this input parses to hostname http with the default port
and no checksum address. -/
theorem parse_http_scheme_not_rejected (defaultPort : Nat)
    (isCs : List Char → Bool) :
    parse_node_uri defaultPort isCs (("http://peer.example:9151").data) =
      .ok { hostname := some (("http").data)
            port := defaultPort
            checksumAddress := none } := by
  rfl

/-- Counterexample to claim C7 as stated: the hostname is not returned
with its letter case preserved. On the locator Peer.Example (no at-sign,
no scheme, no port) parse_node_uri returns the lowercased hostname
peer.example, because the hostname accessor of a urlparse result
lowercases the host. -/
theorem parse_hostname_case_counterexample :
    parse_node_uri 9151 (fun _ => false) (("Peer.Example").data) =
        .ok { hostname := some (("peer.example").data)
              port := 9151
              checksumAddress := none } ∧
      some (("peer.example").data) ≠ some (("Peer.Example").data) := by
  constructor
  · rfl
  · decide

lemma pySplit_ne_nil (sep : Char) (s : List Char) : pySplit sep s ≠ [] := by
  induction s with
  | nil => simp [pySplit]
  | cons c rest ih =>
      unfold pySplit
      by_cases hc : c = sep
      · simp [hc]
      · simp only [if_neg hc]
        cases hr : pySplit sep rest with
        | nil => simp
        | cons h t => simp

lemma pySplit_length (sep : Char) (s : List Char) :
    (pySplit sep s).length = s.count sep + 1 := by
  induction s with
  | nil => simp [pySplit]
  | cons c rest ih =>
      unfold pySplit
      by_cases hc : c = sep
      · simp [hc, List.count_cons, ih]
      · have hbeq : (c == sep) = false := beq_eq_false_iff_ne.mpr hc
        simp only [if_neg hc, List.count_cons, hbeq, Bool.false_eq_true, if_false]
        cases hr : pySplit sep rest with
        | nil => exact absurd hr (pySplit_ne_nil sep rest)
        | cons h t =>
            rw [hr] at ih
            simpa using ih

lemma pySplit_of_not_mem (sep : Char) (s : List Char) (h : sep ∉ s) :
    pySplit sep s = [s] := by
  induction s with
  | nil => rfl
  | cons c rest ih =>
      have hc : c ≠ sep := fun e => h (e ▸ List.mem_cons_self c rest)
      have hrest : sep ∉ rest := fun hm => h (List.mem_cons_of_mem c hm)
      unfold pySplit
      rw [ih hrest]
      simp [hc]

lemma list_three_of_length {α : Type} :
    ∀ l : List α, 3 ≤ l.length → ∃ a b c t, l = a :: b :: c :: t
  | _ :: _ :: _ :: _, _ => ⟨_, _, _, _, rfl⟩

/-- Claim C10: a locator containing two or more at-signs always makes
parse_node_uri raise: uri.split at the at-sign then has at least three
parts and the two-name unpacking fails with ValueError before any
checksum validation or URL parsing. -/
theorem parse_multiple_at_signs_raises (defaultPort : Nat)
    (isCs : List Char → Bool) (uri : List Char)
    (h : 2 ≤ uri.count '@') :
    parse_node_uri defaultPort isCs uri = .error .unpack := by
  have hlen : 3 ≤ (pySplit '@' uri).length := by
    rw [pySplit_length]
    omega
  obtain ⟨a, b, c, t, hr⟩ := list_three_of_length _ hlen
  unfold parse_node_uri
  rw [hr]

/-- Witness for C10 at the concrete locator a@b@c: it has two at-signs and
parsing it raises the unpack ValueError. -/
theorem parse_multiple_at_signs_raises_witness :
    2 ≤ (("a@b@c").data).count '@' ∧
      parse_node_uri 9151 (fun _ => false) (("a@b@c").data) = .error .unpack :=
  ⟨by decide, parse_multiple_at_signs_raises 9151 (fun _ => false) (("a@b@c").data) (by decide)⟩

lemma hostChar_ne {c : Char} (h1 : hostChar c = true) {b : Char}
    (hb : hostChar b = false) : c ≠ b := by
  intro e
  rw [e, hb] at h1
  exact Bool.false_ne_true h1

lemma not_mem_of_hostChars {host : List Char}
    (hchars : ∀ c ∈ host, hostChar c = true) {b : Char}
    (hb : hostChar b = false) : b ∉ host := by
  intro hm
  have h1 := hchars b hm
  rw [hb] at h1
  exact Bool.false_ne_true h1

lemma bne_true_of_ne {c b : Char} (h : c ≠ b) : (!(c == b)) = true := by
  simp [beq_eq_false_iff_ne.mpr h]

lemma ne_of_not_mem {s : List Char} {sep : Char} (h : sep ∉ s) {c : Char}
    (hc : c ∈ s) : c ≠ sep := by
  intro e
  subst e
  exact h hc

lemma beforeFirstAt_of_not_mem (sep : Char) (s : List Char) (h : sep ∉ s) :
    beforeFirstAt sep s = s :=
  List.takeWhile_eq_self_iff.mpr (fun _ hc => bne_true_of_ne (ne_of_not_mem h hc))

lemma dropWhile_bne_of_not_mem (sep : Char) (s : List Char) (h : sep ∉ s) :
    s.dropWhile (fun c => !(c == sep)) = [] :=
  List.dropWhile_eq_nil_iff.mpr (fun _ hc => bne_true_of_ne (ne_of_not_mem h hc))

lemma afterFirstAt_of_not_mem (sep : Char) (s : List Char) (h : sep ∉ s) :
    afterFirstAt sep s = [] := by
  unfold afterFirstAt
  rw [dropWhile_bne_of_not_mem sep s h]
  rfl

lemma afterLastAt_of_not_mem (sep : Char) (s : List Char) (h : sep ∉ s) :
    afterLastAt sep s = s := by
  unfold afterLastAt
  rw [List.takeWhile_eq_self_iff.mpr
    (fun c hc => bne_true_of_ne (ne_of_not_mem h (List.mem_reverse.mp hc)))]
  exact List.reverse_reverse s

/-- Claim C7 amended: for a locator with no at-sign, no explicit scheme
and no port (a bare hostname of ASCII letters, digits, dots and hyphens),
parse_node_uri returns the hostname lowercased (the hostname accessor of
urlparse case-normalizes; the claim originally said the case is
preserved), the externally configured default port, and no identity. -/
theorem parse_bare_hostname (defaultPort : Nat) (isCs : List Char → Bool)
    (host : List Char) (hne : host ≠ [])
    (hchars : ∀ c ∈ host, hostChar c = true) :
    parse_node_uri defaultPort isCs host =
      .ok { hostname := some (host.map Char.toLower)
            port := defaultPort
            checksumAddress := none } := by
  have hat : '@' ∉ host := not_mem_of_hostChars hchars (by decide)
  have hcolon : ':' ∉ host := not_mem_of_hostChars hchars (by decide)
  have hlbr : '[' ∉ host := not_mem_of_hostChars hchars (by decide)
  have hrbr : ']' ∉ host := not_mem_of_hostChars hchars (by decide)
  have hpct : '%' ∉ host := not_mem_of_hostChars hchars (by decide)
  have hsplit : pySplit '@' host = [host] := pySplit_of_not_mem _ _ hat
  have htake : host.take 8 ≠ httpsMarker := by
    intro e
    have hm : ':' ∈ host.take 8 := by rw [e]; decide
    exact hcolon (List.mem_of_mem_take hm)
  have hclean : cleanUrl (httpsMarker ++ host) = httpsMarker ++ host := by
    apply List.filter_eq_self.mpr
    intro c hc
    rcases List.mem_append.mp hc with hm | hm
    · exact (by decide :
        ∀ c ∈ httpsMarker,
          (!(c == Char.ofNat 9 || c == Char.ofNat 13 || c == Char.ofNat 10)) = true) c hm
    · have h1 := hchars c hm
      have h9 := hostChar_ne h1 (by decide : hostChar (Char.ofNat 9) = false)
      have h13 := hostChar_ne h1 (by decide : hostChar (Char.ofNat 13) = false)
      have h10 := hostChar_ne h1 (by decide : hostChar (Char.ofNat 10) = false)
      simp [beq_eq_false_iff_ne.mpr h9, beq_eq_false_iff_ne.mpr h13,
        beq_eq_false_iff_ne.mpr h10]
  have hdrop : (httpsMarker ++ host).drop 8 = host := by
    have h8 : httpsMarker.length = 8 := by decide
    rw [← h8, List.drop_left]
  have hnetloc : (((cleanUrl (httpsMarker ++ host)).drop 8).takeWhile
      (fun c => !(isNetlocDelim c))) = host := by
    rw [hclean, hdrop]
    apply List.takeWhile_eq_self_iff.mpr
    intro c hm
    have h1 := hchars c hm
    have hs := hostChar_ne h1 (by decide : hostChar (Char.ofNat 47) = false)
    have hq := hostChar_ne h1 (by decide : hostChar (Char.ofNat 63) = false)
    have hh := hostChar_ne h1 (by decide : hostChar (Char.ofNat 35) = false)
    simp [isNetlocDelim, beq_eq_false_iff_ne.mpr hs, beq_eq_false_iff_ne.mpr hq,
      beq_eq_false_iff_ne.mpr hh]
  have hcontL : host.contains '[' = false := by simpa using hlbr
  have hcontR : host.contains ']' = false := by simpa using hrbr
  have hhostinfo : hostinfoOf host = (host, none) := by
    simp only [hostinfoOf, afterLastAt_of_not_mem _ _ hat, hcontL,
      beforeFirstAt_of_not_mem _ _ hcolon, afterFirstAt_of_not_mem _ _ hcolon]
    simp
  have hhostname : hostnameOf host = some (host.map Char.toLower) := by
    simp only [hostnameOf, hhostinfo, if_neg hne,
      beforeFirstAt_of_not_mem _ _ hpct, dropWhile_bne_of_not_mem _ _ hpct,
      List.append_nil]
  have hport : portOf host = .ok none := by
    simp only [portOf, hhostinfo]
  simp only [parse_node_uri, hsplit, if_neg htake, urlparseHttps,
    hnetloc, hcontL, hcontR, Bool.false_and, Bool.and_false, Bool.not_false,
    Bool.and_true, Bool.or_self, Bool.false_eq_true, if_false,
    ne_eq, not_true_eq_false, reduceIte, hport, hhostname]

/-- Witness for the C7 theorem at the concrete locator peer.example: the
hypotheses hold and parsing yields hostname peer.example (its own
lowercase form), the default port, and no identity, matching the worked
example of the spec. -/
theorem parse_bare_hostname_witness :
    ((("peer.example").data ≠ [] ∧ ∀ c ∈ (("peer.example").data), hostChar c = true) ∧
      parse_node_uri 9151 (fun _ => false) (("peer.example").data) =
        .ok { hostname := some ((("peer.example").data).map Char.toLower)
              port := 9151
              checksumAddress := none }) :=
  ⟨⟨by decide, by decide⟩,
    parse_bare_hostname 9151 (fun _ => false) (("peer.example").data)
      (by decide) (by decide)⟩

/-- Claim C3: in a maintenance round with zero known peers, the severe
action is invoked exactly once when the node is not lonely and the elapsed
time since start reaches MAXIMUM_ALONE_TIME, and it is not invoked from
this branch otherwise (lonely node, or elapsed time below the bound); in
both cases the sensor state is unchanged. -/
theorem maintain_isolation (s : Sensor) (env : Env) (h0 : env.knownNodes = 0) :
    (env.lonely = false → MAXIMUM_ALONE_TIME ≤ env.now - s.startTime →
        maintain s env = .ok (s, [Action.severe])) ∧
      (env.lonely = true ∨ env.now - s.startTime < MAXIMUM_ALONE_TIME →
        maintain s env = .ok (s, [])) := by
  constructor
  · intro hl hd
    simp [maintain, h0, hl, hd]
  · rintro (hl | hd)
    · simp [maintain, h0, hl]
    · cases hb : env.lonely
      · simp [maintain, h0, hb, if_neg (not_le.mpr hd)]
      · simp [maintain, h0, hb]

/-- Witness for C3 at a concrete sensor started at time 0 with zero known
peers, not lonely, at clock 200 (beyond the 120-second bound): the round
invokes exactly the severe action and leaves the state unchanged. -/
theorem maintain_isolation_witness :
    maintain (mkSensor 3 2 10 0)
        { knownNodes := 0, lonely := false, now := 200, statuses := [] } =
      .ok (mkSensor 3 2 10 0, [Action.severe]) :=
  (maintain_isolation (mkSensor 3 2 10 0)
      { knownNodes := 0, lonely := false, now := 200, statuses := [] } rfl).1
    rfl (by decide)

/-- Claim C9: a maintenance round that skips (zero known peers with the
node lonely or the alone time not yet exceeded, or a non-empty known-peer
set smaller than the sample size) returns the sensor state unchanged:
nothing is recorded and no escalation action is invoked. -/
theorem maintain_skip_no_effects (s : Sensor) (env : Env)
    (h : (env.knownNodes = 0 ∧
            (env.lonely = true ∨ env.now - s.startTime < MAXIMUM_ALONE_TIME)) ∨
         (env.knownNodes ≠ 0 ∧ env.knownNodes < s.sampleSize)) :
    maintain s env = .ok (s, []) := by
  rcases h with ⟨h0, hl | hd⟩ | ⟨h0, hlt⟩
  · simp [maintain, h0, hl]
  · cases hb : env.lonely
    · simp [maintain, h0, hb, if_neg (not_le.mpr hd)]
    · simp [maintain, h0, hb]
  · simp [maintain, h0, hlt]

/-- Witness for C9 at the spec example: sample size 3 with exactly 2 known
peers; the round appends nothing and triggers nothing. -/
theorem maintain_skip_no_effects_witness :
    maintain (mkSensor 3 2 10 0)
        { knownNodes := 2, lonely := false, now := 999, statuses := [] } =
      .ok (mkSensor 3 2 10 0, []) :=
  maintain_skip_no_effects (mkSensor 3 2 10 0)
    { knownNodes := 2, lonely := false, now := 999, statuses := [] }
    (Or.inr ⟨by decide, by decide⟩)

/-- Claim C8: whenever sensitivity exceeds the sample size, measure raises
the configuration ValueError, whatever probe responses the population
could have produced: the guard precedes sampling in the source, so the
error is independent of the statuses. -/
theorem measure_sensitivity_guard (s : Sensor) (statuses : List Nat)
    (h : s.sampleSize < s.sensitivity) :
    measure s statuses = .error .configError := by
  simp [measure, h]

/-- Witness for C8 at the spec example sensitivity 3, sample size 2: the
configuration error is raised (here with an all-success response list,
underlining that the responses are irrelevant). -/
theorem measure_sensitivity_guard_witness :
    measure (mkSensor 2 3 10 0) [200, 200] = .error .configError :=
  measure_sensitivity_guard (mkSensor 2 3 10 0) [200, 200] (by decide)

lemma dequeAppend_of_lt (maxlen : Nat) (xs : List SensorRecord) (x : SensorRecord)
    (h : xs.length < maxlen) : dequeAppend maxlen xs x = xs ++ [x] := by
  simp only [dequeAppend, List.length_append, List.length_singleton]
  have h0 : xs.length + 1 - maxlen = 0 := by omega
  rw [h0, List.drop_zero]

lemma recordAll_records (outcomes : List (Int × Bool)) :
    ∀ s : Sensor, s.records.length + outcomes.length ≤ s.retention →
      (recordAll s outcomes).records =
          s.records ++ outcomes.map (fun o => { time := o.1, result := o.2 }) ∧
        (recordAll s outcomes).retention = s.retention := by
  induction outcomes with
  | nil => intro s _; simp [recordAll]
  | cons o rest ih =>
      intro s h
      have hlt : s.records.length < s.retention := by
        simp only [List.length_cons] at h; omega
      have hrec : record s o.1 o.2 =
          { s with records := s.records ++ [{ time := o.1, result := o.2 }] } := by
        simp [record, dequeAppend_of_lt _ _ _ hlt]
      have hstep : recordAll s (o :: rest) = recordAll (record s o.1 o.2) rest := rfl
      rw [hstep, hrec]
      obtain ⟨h1, h2⟩ :=
        ih { s with records := s.records ++ [{ time := o.1, result := o.2 }] }
          (by simp at h ⊢; omega)
      refine ⟨?_, h2⟩
      rw [h1]
      simp

/-- Claim C2: appending exactly k failed and retention minus k non-failed
records (in any order) to a fresh sensor of capacity retention fills the
window without eviction, and score is then k divided by the configured
retention capacity. -/
theorem score_full_window (sampleSize sensitivity retention : Nat)
    (startTime : Int) (outcomes : List (Int × Bool)) (k : Nat)
    (_hret : 0 < retention) (hlen : outcomes.length = retention)
    (hk : outcomes.countP (fun o => o.2) = k) :
    score (recordAll (mkSensor sampleSize sensitivity retention startTime) outcomes) =
      (k : ℚ) / (retention : ℚ) := by
  obtain ⟨h1, h2⟩ :=
    recordAll_records outcomes (mkSensor sampleSize sensitivity retention startTime)
      (by simp [mkSensor, hlen])
  rw [score, h1, h2]
  simp only [mkSensor, List.nil_append, failedCount, List.countP_map]
  have hcomp : ((fun r : SensorRecord => r.result) ∘
      (fun o : Int × Bool => ({ time := o.1, result := o.2 } : SensorRecord))) =
      (fun o : Int × Bool => o.2) := rfl
  rw [hcomp, hk]

/-- Witness for C2 at retention 2 with one failed and one successful
round: the score is one half. -/
theorem score_full_window_witness :
    ((0 : Nat) < 2 ∧ ([((0 : Int), true), ((1 : Int), false)]).length = 2 ∧
        ([((0 : Int), true), ((1 : Int), false)]).countP (fun o => o.2) = 1) ∧
      score (recordAll (mkSensor 3 2 2 0) [((0 : Int), true), ((1 : Int), false)]) =
        ((1 : Nat) : ℚ) / ((2 : Nat) : ℚ) :=
  ⟨⟨by decide, by decide, by decide⟩,
    score_full_window 3 2 2 0 [((0 : Int), true), ((1 : Int), false)] 1
      (by decide) (by decide) (by decide)⟩

/-- Counterexample to claim C1 as stated: the claim says that for every
retention above 1 the medium action is never invoked. With retention 2 the
warnings dict maps threshold 1 to medium (the key retention // 2 = 1
overwrites the mild entry), so after two failed rounds the score is 1 and
issue_warnings invokes the medium action. -/
theorem issue_warnings_medium_at_retention_two :
    (recordAll (mkSensor 3 2 2 0) [((0 : Int), true), ((1 : Int), true)]).retention > 1 ∧
      Action.medium ∈
        issue_warnings (recordAll (mkSensor 3 2 2 0) [((0 : Int), true), ((1 : Int), true)]) := by
  refine ⟨by decide, ?_⟩
  have hcf : failedCount
      (recordAll (mkSensor 3 2 2 0) [((0 : Int), true), ((1 : Int), true)]).records = 2 := by
    decide
  have hret : (recordAll (mkSensor 3 2 2 0) [((0 : Int), true), ((1 : Int), true)]).retention = 2 := by
    decide
  have hsc : score (recordAll (mkSensor 3 2 2 0) [((0 : Int), true), ((1 : Int), true)]) = 1 := by
    rw [score, hcf, hret]
    norm_num
  have hw : mkWarnings
      (recordAll (mkSensor 3 2 2 0) [((0 : Int), true), ((1 : Int), true)]).retention =
      [(1, Action.medium), (2, Action.severe)] := by
    rw [hret]; decide
  rw [issue_warnings, hw, hsc]
  norm_num [issueWarningsFrom, actionRaises]

/-- Claim C1 amended: for every sensor configured with retention above 3
(so that the dict keys 1, retention // 2 and retention are distinct; for
retention 2 or 3 the medium action takes over threshold 1, see the
counterexample), issue_warnings never invokes the medium or severe action,
and it invokes the mild action exactly when the score reaches 1, that is,
when the window holds retention records and every one of them is a
failure; in particular with retention 10 a window of ten consecutive
failures fires mild only. -/
theorem issue_warnings_high_retention (s : Sensor) (hr : 4 ≤ s.retention)
    (hlen : s.records.length ≤ s.retention) :
    Action.medium ∉ issue_warnings s ∧ Action.severe ∉ issue_warnings s ∧
      (Action.mild ∈ issue_warnings s ↔
        (s.records.length = s.retention ∧ ∀ r ∈ s.records, r.result = true)) := by
  have hrQ : (0 : ℚ) < (s.retention : ℚ) := by
    exact_mod_cast (by omega : 0 < s.retention)
  have hcf_le : failedCount s.records ≤ s.records.length :=
    List.countP_le_length _
  have hscore_le : score s ≤ 1 := by
    rw [score, div_le_one hrQ]
    exact_mod_cast le_trans hcf_le hlen
  have hwar : mkWarnings s.retention =
      [(1, Action.mild), (s.retention / 2, Action.medium),
       (s.retention, Action.severe)] := by
    have h2 : ¬ ((1 : Nat) = s.retention / 2) := by omega
    have h3 : ¬ ((1 : Nat) = s.retention) := by omega
    have h4 : ¬ (s.retention / 2 = s.retention) := by omega
    simp [mkWarnings, dictInsert, h2, h3, h4]
  have hmed : ¬ ((s.retention / 2 : Nat) : ℚ) ≤ score s := by
    intro hle
    have h2le : (2 : ℚ) ≤ ((s.retention / 2 : Nat) : ℚ) := by
      exact_mod_cast (by omega : 2 ≤ s.retention / 2)
    linarith
  have hsev : ¬ ((s.retention : Nat) : ℚ) ≤ score s := by
    intro hle
    have h4le : (4 : ℚ) ≤ ((s.retention : Nat) : ℚ) := by exact_mod_cast hr
    linarith
  have heval : issue_warnings s =
      if (1 : ℚ) ≤ score s then [Action.mild] else [] := by
    rw [issue_warnings, hwar]
    by_cases h1 : (1 : ℚ) ≤ score s
    · rw [if_pos h1]
      simp [issueWarningsFrom, actionRaises, h1, hmed, hsev]
    · rw [if_neg h1]
      simp [issueWarningsFrom, h1, lt_of_not_le h1, hmed, hsev]
  have hiff : ((1 : ℚ) ≤ score s) ↔
      (s.records.length = s.retention ∧ ∀ r ∈ s.records, r.result = true) := by
    rw [score, le_div_iff₀ hrQ, one_mul, Nat.cast_le]
    constructor
    · intro hle
      have hcf_eq : failedCount s.records = s.records.length :=
        le_antisymm hcf_le (le_trans hlen hle)
      refine ⟨le_antisymm hlen (le_trans hle hcf_le), ?_⟩
      intro r hrm
      exact List.countP_eq_length.mp hcf_eq r hrm
    · rintro ⟨hl, hall⟩
      have hcf_eq : failedCount s.records = s.records.length :=
        List.countP_eq_length.mpr (fun a ha => hall a ha)
      have h5 : failedCount s.records = s.retention := hcf_eq.trans hl
      omega
  rw [heval]
  by_cases h1 : (1 : ℚ) ≤ score s
  · rw [if_pos h1]
    refine ⟨by simp, by simp, ?_⟩
    constructor
    · intro _
      exact hiff.mp h1
    · intro _
      simp
  · rw [if_neg h1]
    refine ⟨by simp, by simp, ?_⟩
    constructor
    · intro hmem
      exact absurd hmem (List.not_mem_nil _)
    · intro hrh
      exact absurd (hiff.mpr hrh) h1

/-- Witness for C1 at the end-to-end scenario of the spec: retention 10,
ten consecutive failed rounds; the theorem applies and (evaluating the iff
at this sensor, whose window is full of failures) only mild fires. -/
theorem issue_warnings_high_retention_witness :
    (4 ≤ sensorTen.retention ∧ sensorTen.records.length ≤ sensorTen.retention) ∧
      (Action.medium ∉ issue_warnings sensorTen ∧
        Action.severe ∉ issue_warnings sensorTen ∧
        (Action.mild ∈ issue_warnings sensorTen ↔
          (sensorTen.records.length = sensorTen.retention ∧
            ∀ r ∈ sensorTen.records, r.result = true))) :=
  ⟨⟨by decide, by decide⟩,
    issue_warnings_high_retention sensorTen (by decide) (by decide)⟩

end NucypherProtocols
